import Mathlib

/-!
Verification development for the AdiOS model performance monitoring plugin
(`src/main.rs`) and the core design its specification describes.

The Rust source is a plugin stub: it declares the data structures below and
a constructor/pricing accessor with hardcoded data.  The specification's
core components (metric store, health evaluator, remediation engine) have
no implementation in the source; those are modelled here from the
specification's own words, and every such definition is marked
`Modelled from the spec:` in its doc comment.

Conventions of the embedding:
- Rust `f32`/`f64` values are modelled as rationals (`ℚ`); the literals in
  the source (`0.93`, `0.85`) become the rationals they denote.
- `HashMap<Uuid, MonitoredModel>` is modelled as an association list keyed
  by the model id rendered as a `String`.
- `tokio::sync::RwLock` is dropped: the state is held directly (no claim
  here concerns interleaved access to the lock).
- `anyhow::Result<T>` is modelled as `Except String T`.
- `env!("CARGO_PKG_VERSION")` is a compile-time constant unknown to the
  embedding; functions that mention it take the version string as an
  explicit argument.
-/

/-- `ModelStatus` from `src/main.rs` (also the spec's `HealthStatus` variants). -/
inductive ModelStatus where
  | Healthy
  | Degraded
  | Critical
  | Offline
deriving DecidableEq, Repr

/-- `PluginInfo` from `src/main.rs`. -/
structure PluginInfo where
  id : String
  name : String
  version : String
  description : String
  author : String
  category : String
deriving DecidableEq, Repr

/-- `MonitoredModel` from `src/main.rs`; `DateTime<Utc>` timestamps are
rationals (seconds since an epoch). -/
structure MonitoredModel where
  id : String
  name : String
  model_type : String
  status : ModelStatus
  created_at : ℚ
  last_check : ℚ
  performance_score : ℚ
deriving DecidableEq, Repr

/-- `SystemMetrics` from `src/main.rs`. -/
structure SystemMetrics where
  total_models : ℕ
  healthy_models : ℕ
  degraded_models : ℕ
  average_performance : ℚ
deriving DecidableEq, Repr

/-- `PluginConfig` from `src/main.rs`. -/
structure PluginConfig where
  check_interval_minutes : ℕ
  performance_threshold : ℚ
  auto_remediation : Bool
  alert_enabled : Bool
deriving DecidableEq, Repr

/-- `PluginState` from `src/main.rs`; the `HashMap` is an association list. -/
structure PluginState where
  monitored_models : List (String × MonitoredModel)
  system_metrics : SystemMetrics
  config : PluginConfig
deriving DecidableEq, Repr

/-- `impl Default for PluginState` from `src/main.rs`. -/
def PluginState.default : PluginState :=
  { monitored_models := []
    system_metrics :=
      { total_models := 0
        healthy_models := 0
        degraded_models := 0
        average_performance := 93/100 }
    config :=
      { check_interval_minutes := 5
        performance_threshold := 85/100
        auto_remediation := true
        alert_enabled := true } }

/-- `ModelPerformanceMonitoringPlugin` from `src/main.rs` (the `RwLock`
around the state is dropped). -/
structure ModelPerformanceMonitoringPlugin where
  info : PluginInfo
  state : PluginState
deriving DecidableEq, Repr

/-- `ModelPerformanceMonitoringPlugin::new` from `src/main.rs`.  The source
builds a hardcoded `PluginInfo` (with `version` read from the compile-time
constant `CARGO_PKG_VERSION`, here an explicit argument), the default state,
and unconditionally returns `Ok`. -/
def ModelPerformanceMonitoringPlugin.new (cargo_pkg_version : String) :
    Except String ModelPerformanceMonitoringPlugin :=
  Except.ok
    { info :=
        { id := "adios.model-performance-monitoring"
          name := "AdiOS Model Performance Monitoring"
          version := cargo_pkg_version
          description := "Enterprise model performance monitoring service"
          author := "TridentBiz Team"
          category := "enterprise" }
      state := PluginState.default }

/-- `PricingTier` from `src/main.rs` (`price` is in cents). -/
structure PricingTier where
  name : String
  price : ℕ
  features : List String
deriving DecidableEq, Repr

/-- `ModelPerformanceMonitoringPlugin::pricing_tiers` from `src/main.rs`:
a hardcoded three-element vector, not reading `self`. -/
def ModelPerformanceMonitoringPlugin.pricing_tiers
    (_self : ModelPerformanceMonitoringPlugin) : List PricingTier :=
  [ { name := "Starter"
      price := 150000
      features :=
        [ "Basic model monitoring"
        , "Up to 10 models"
        , "Performance dashboards"
        , "Email alerts" ] }
  , { name := "Professional"
      price := 750000
      features :=
        [ "Advanced monitoring & analytics"
        , "Up to 100 models"
        , "Auto-remediation"
        , "Custom metrics"
        , "Priority support" ] }
  , { name := "Enterprise"
      price := 3000000
      features :=
        [ "Unlimited models"
        , "Advanced AI-driven optimization"
        , "Custom remediation workflows"
        , "Dedicated support team"
        , "On-premises deployment" ] } ]

/-!
## Spec-modelled core

The specification (sections 3, 4.2, 4.3, 7) describes a health evaluator,
a model registry and a remediation engine that the source stub does not
implement.  The definitions below are modelled from the specification's
words; each doc comment records exactly what is missing from the source.
-/

/-- Modelled from the spec: the `Sample` record of section 3
(`{model_id, timestamp, value, metric_name}`); the source has no sample
type.  Timestamps and values are rationals. -/
structure Sample where
  model_id : String
  timestamp : ℚ
  value : ℚ
  metric_name : String
deriving DecidableEq, Repr

/-- Modelled from the spec: the health evaluator's configuration of
section 4.2 (window size `N`, decay factor `lam`, the three status
thresholds and `offline_after`); the source has no evaluator. -/
structure EvaluatorConfig where
  window_size : ℕ
  lam : ℚ
  healthy_threshold : ℚ
  degraded_threshold : ℚ
  offline_after : ℚ
deriving DecidableEq, Repr

/-- Modelled from the spec: section 4.2's defaults
(`N = 20`, `λ = 0.3`, thresholds `0.85`/`0.60`, `offline_after` 15 min). -/
def EvaluatorConfig.default : EvaluatorConfig :=
  { window_size := 20
    lam := 3/10
    healthy_threshold := 85/100
    degraded_threshold := 60/100
    offline_after := 15 * 60 }

/-- One EWMA update: new accumulator `λ·x + (1-λ)·acc`, so more recent
samples weigh more. -/
def ewmaStep (lam acc x : ℚ) : ℚ :=
  lam * x + (1 - lam) * acc

/-- Modelled from the spec: the exponentially-weighted moving average of
section 4.2 over a list of values given oldest first; the empty list
scores `0` (section 4.2's zero-sample edge case).  The source has no
scoring algorithm. -/
def ewma (lam : ℚ) : List ℚ → ℚ
  | [] => 0
  | x :: xs => xs.foldl (ewmaStep lam) x

/-- Modelled from the spec: `evaluate(model_id) -> (HealthStatus, score)`
of section 4.2, applied to the model's sample sequence (oldest first) at
time `now`.  Score is the EWMA of the last `N` samples; zero samples give
`(Offline, 0)`; no sample within `offline_after` of `now` gives `Offline`
regardless of score; otherwise the thresholds decide the status.  The
source has no evaluator. -/
def evaluate (cfg : EvaluatorConfig) (now : ℚ) (samples : List Sample) :
    ModelStatus × ℚ :=
  let window := samples.drop (samples.length - cfg.window_size)
  let score := ewma cfg.lam (window.map Sample.value)
  if samples.isEmpty then
    (ModelStatus.Offline, 0)
  else if samples.all (fun s => decide (s.timestamp + cfg.offline_after < now)) then
    (ModelStatus.Offline, score)
  else if cfg.healthy_threshold ≤ score then
    (ModelStatus.Healthy, score)
  else if cfg.degraded_threshold ≤ score then
    (ModelStatus.Degraded, score)
  else
    (ModelStatus.Critical, score)

/-- Modelled from the spec: model registration of section 3 ("Created on
registration; destroyed on explicit removal; registration is idempotent by
id"), over a registry kept as an association list keyed by model id.  A
model whose id is already registered is not re-added.  The source has no
registration operation. -/
def registerModel (registry : List (String × MonitoredModel))
    (m : MonitoredModel) : List (String × MonitoredModel) :=
  if registry.any (fun e => e.fst = m.id) then registry
  else registry ++ [(m.id, m)]

/-- Modelled from the spec: `RemediationAction` outcomes of section 3
(`{Pending, Succeeded, Failed, Exhausted}`); absent from the source. -/
inductive ActionOutcome where
  | Pending
  | Succeeded
  | Failed
  | Exhausted
deriving DecidableEq, Repr

/-- Modelled from the spec: the `RemediationAction` record of section 3
(`{model_id, action_kind, attempt_count, last_attempt_at, outcome}`);
absent from the source. -/
structure RemediationAction where
  model_id : String
  action_kind : String
  attempt_count : ℕ
  last_attempt_at : ℚ
  outcome : ActionOutcome
deriving DecidableEq, Repr

/-- Modelled from the spec: the remediation state machine's states of
section 4.3 (`{Idle, Remediating, Cooldown, Exhausted}`); absent from the
source. -/
inductive RemediationPhase where
  | Idle
  | Remediating
  | Cooldown
  | Exhausted
deriving DecidableEq, Repr

/-- Modelled from the spec: the remediation engine's configuration of
section 4.3 (`max_attempts`, default 5, and whether Degraded also
triggers remediation); absent from the source. -/
structure EngineConfig where
  max_attempts : ℕ
  remediate_on_degraded : Bool
deriving DecidableEq, Repr

/-- Modelled from the spec: section 4.3's defaults (`max_attempts = 5`;
remediation triggered by Critical only unless configured otherwise). -/
def EngineConfig.default : EngineConfig :=
  { max_attempts := 5, remediate_on_degraded := false }

/-- Modelled from the spec: the per-model remediation engine state —
current phase, count of consecutive failed attempts in the unresolved
episode, and the `RemediationAction` history owned by the engine
(section 4.3: "every attempt outcome is logged as part of the
RemediationAction history").  Absent from the source. -/
structure EngineState where
  phase : RemediationPhase
  attempts : ℕ
  actions : List RemediationAction
deriving DecidableEq, Repr

/-- Modelled from the spec: the engine's initial state (Idle, no attempts,
empty action history). -/
def EngineState.init : EngineState :=
  { phase := RemediationPhase.Idle, attempts := 0, actions := [] }

/-- Modelled from the spec: the events driving the remediation state
machine of section 4.3 — an evaluation result, completion of the in-flight
action by the external executor (`true` = Succeeded, `false` = Failed,
with `ExecutorTimeout` treated as failure per section 7), cooldown expiry,
and a manual operator reset.  Absent from the source. -/
inductive EngineEvent where
  | evalResult (status : ModelStatus) (now : ℚ)
  | actionComplete (success : Bool)
  | cooldownExpired
  | operatorReset
deriving DecidableEq, Repr

/-- Does evaluation status `s` trigger remediation?  Section 4.3:
"triggered when evaluation yields Critical (or Degraded, per config)". -/
def triggersRemediation (cfg : EngineConfig) (s : ModelStatus) : Bool :=
  s = ModelStatus.Critical ∨ (cfg.remediate_on_degraded ∧ s = ModelStatus.Degraded)

/-- Is some action in the history still in-flight (outcome Pending)? -/
def hasPending (actions : List RemediationAction) : Bool :=
  actions.any (fun a => a.outcome = ActionOutcome.Pending)

/-- Resolve the first in-flight action of the history to the given
terminal outcome; the rest of the history is untouched. -/
def resolvePending (out : ActionOutcome) :
    List RemediationAction → List RemediationAction
  | [] => []
  | a :: rest =>
    if a.outcome = ActionOutcome.Pending then { a with outcome := out } :: rest
    else a :: resolvePending out rest

/-- Modelled from the spec: one step of the per-model remediation state
machine of section 4.3, for model `mid`.  Transitions:
Idle → Remediating when the evaluation triggers remediation and no action
is in-flight (a new Pending action is appended to the history);
Remediating → Cooldown on action completion, except that the
`max_attempts`-th consecutive failure goes to Exhausted;
Cooldown → Idle on cooldown expiry;
any state → Idle on a Healthy evaluation or an operator reset (attempt
counter reset); a success resets the attempt counter.  Absent from the
source. -/
def engineStep (cfg : EngineConfig) (mid : String) (st : EngineState)
    (ev : EngineEvent) : EngineState :=
  match ev with
  | EngineEvent.evalResult status now =>
    if status = ModelStatus.Healthy then
      { st with phase := RemediationPhase.Idle, attempts := 0 }
    else
      match st.phase with
      | RemediationPhase.Idle =>
        if triggersRemediation cfg status ∧ ¬ hasPending st.actions then
          { st with
              phase := RemediationPhase.Remediating
              actions := st.actions ++
                [{ model_id := mid
                   action_kind := "remediate"
                   attempt_count := st.attempts + 1
                   last_attempt_at := now
                   outcome := ActionOutcome.Pending }] }
        else st
      | _ => st
  | EngineEvent.actionComplete success =>
    let resolved :=
      resolvePending (if success then ActionOutcome.Succeeded else ActionOutcome.Failed)
        st.actions
    match st.phase with
    | RemediationPhase.Remediating =>
      if success then
        { phase := RemediationPhase.Cooldown, attempts := 0, actions := resolved }
      else if cfg.max_attempts ≤ st.attempts + 1 then
        { phase := RemediationPhase.Exhausted, attempts := st.attempts + 1
          actions := resolved }
      else
        { phase := RemediationPhase.Cooldown, attempts := st.attempts + 1
          actions := resolved }
    | _ => { st with actions := resolved }
  | EngineEvent.cooldownExpired =>
    match st.phase with
    | RemediationPhase.Cooldown => { st with phase := RemediationPhase.Idle }
    | _ => st
  | EngineEvent.operatorReset =>
    { st with phase := RemediationPhase.Idle, attempts := 0 }

/-- Run the engine from a state over a list of events. -/
def engineRun (cfg : EngineConfig) (mid : String) (st : EngineState)
    (evs : List EngineEvent) : EngineState :=
  evs.foldl (engineStep cfg mid) st

/-- Number of in-flight (Pending) actions in a history. -/
def pendingCount (actions : List RemediationAction) : ℕ :=
  actions.countP (fun a => a.outcome = ActionOutcome.Pending)

/-- One round of a failing episode: a Critical evaluation (issuing an
action), the executor reporting failure, and the subsequent cooldown
expiring. -/
def failRound (now : ℚ) : List EngineEvent :=
  [ EngineEvent.evalResult ModelStatus.Critical now
  , EngineEvent.actionComplete false
  , EngineEvent.cooldownExpired ]

/-- `k` consecutive failing rounds. -/
def failEpisode (now : ℚ) (k : ℕ) : List EngineEvent :=
  (List.replicate k (failRound now)).flatten

/-- Spec-worded (sections 6 and 7), for comparison against the source
constructor: the recognized configuration options relevant at startup —
the three status thresholds and the recognized durations. -/
structure SpecStartupConfig where
  healthy_threshold : ℚ
  degraded_threshold : ℚ
  critical_threshold : ℚ
  check_interval : ℚ
  offline_after : ℚ
  cooldown_duration : ℚ
  suppression_window : ℚ
  eviction_horizon : ℚ
deriving DecidableEq, Repr

/-- Spec-worded (section 7): a startup configuration is valid when the
thresholds satisfy Healthy > Degraded > Critical and all durations are
strictly positive. -/
def specStartupConfigValid (c : SpecStartupConfig) : Bool :=
  c.degraded_threshold < c.healthy_threshold ∧
  c.critical_threshold < c.degraded_threshold ∧
  0 < c.check_interval ∧ 0 < c.offline_after ∧ 0 < c.cooldown_duration ∧
  0 < c.suppression_window ∧ 0 < c.eviction_horizon

/-- Startup of the source plugin in an environment whose configuration is
`c`: the source constructor `ModelPerformanceMonitoringPlugin::new` takes
no configuration and reads none, so `c` cannot influence it; the
constructor is invoked as written. -/
def codeStartup (_c : SpecStartupConfig) (cargo_pkg_version : String) :
    Except String ModelPerformanceMonitoringPlugin :=
  ModelPerformanceMonitoringPlugin.new cargo_pkg_version

/-!
## Theorems

Helper lemmas first, then one theorem per claim (with a witness where the
theorem has hypotheses).
-/

-- A registry already holding the id being registered is left unchanged.
theorem registerModel_of_mem (reg : List (String × MonitoredModel))
    (m : MonitoredModel) (h : reg.any (fun e => e.fst = m.id) = true) :
    registerModel reg m = reg := by
  simp [registerModel, h]

/-- C1: for every evaluator configuration and every evaluation time,
`evaluate` on an empty sample sequence yields `(Offline, 0)`. -/
theorem evaluate_no_samples_offline_zero (cfg : EvaluatorConfig) (now : ℚ) :
    evaluate cfg now [] = (ModelStatus.Offline, 0) :=
  rfl

/-- C5 counterexample: the claim "startup fails with `ConfigurationInvalid`
whenever the supplied configuration violates Healthy > Degraded > Critical
or contains a non-positive duration" is false on the source: here is a
configuration violating both constraints on which startup still returns
`Ok` — `ModelPerformanceMonitoringPlugin::new` has no failure path and
performs no validation. -/
theorem codeStartup_ok_on_invalid_config :
    specStartupConfigValid
      { healthy_threshold := 1/2
        degraded_threshold := 7/10
        critical_threshold := 9/10
        check_interval := 0
        offline_after := 0
        cooldown_duration := 0
        suppression_window := 0
        eviction_horizon := 0 } = false ∧
    ∃ p, codeStartup
      { healthy_threshold := 1/2
        degraded_threshold := 7/10
        critical_threshold := 9/10
        check_interval := 0
        offline_after := 0
        cooldown_duration := 0
        suppression_window := 0
        eviction_horizon := 0 } "0.1.0" = Except.ok p := by
  refine ⟨?_, ⟨_, rfl⟩⟩
  norm_num [specStartupConfigValid]

/-- C5 (amended): the source constructor performs no configuration
validation at all — for every supplied configuration, valid or not,
startup returns `Ok` with the default state; no `ConfigurationInvalid`
error path exists. -/
theorem codeStartup_always_ok (c : SpecStartupConfig) (v : String) :
    ∃ p, codeStartup c v = Except.ok p ∧ p.state = PluginState.default :=
  ⟨_, rfl, rfl⟩

/-- C6: registration is idempotent by id — registering a model whose id is
already registered leaves the registry at the state after the single
registration. -/
theorem registerModel_idempotent (reg : List (String × MonitoredModel))
    (m m2 : MonitoredModel) (h : m2.id = m.id) :
    registerModel (registerModel reg m) m2 = registerModel reg m := by
  apply registerModel_of_mem
  rw [h]
  unfold registerModel
  split
  · assumption
  · simp [List.any_append]

/-- Witness for C6 at a concrete registry and two models sharing an id. -/
theorem registerModel_idempotent_witness :
    (MonitoredModel.mk "model-a" "renamed" "classifier" ModelStatus.Degraded 0 0 0).id =
      (MonitoredModel.mk "model-a" "first" "classifier" ModelStatus.Healthy 0 0 1).id ∧
    registerModel
      (registerModel []
        (MonitoredModel.mk "model-a" "first" "classifier" ModelStatus.Healthy 0 0 1))
      (MonitoredModel.mk "model-a" "renamed" "classifier" ModelStatus.Degraded 0 0 0) =
    registerModel []
      (MonitoredModel.mk "model-a" "first" "classifier" ModelStatus.Healthy 0 0 1) :=
  ⟨rfl, registerModel_idempotent _ _ _ rfl⟩

/-- C7: the default plugin state's configuration sets the scheduler's
check interval to 5 minutes. -/
theorem default_config_check_interval_five :
    PluginState.default.config.check_interval_minutes = 5 :=
  rfl

/-- C8: the default plugin state sets `system_metrics.average_performance`
to exactly 0.93. -/
theorem default_average_performance :
    PluginState.default.system_metrics.average_performance = 93/100 :=
  rfl

/-- C9: `ModelPerformanceMonitoringPlugin::new` always returns `Ok`, and
the constructed state is the default one: no monitored models and zero
total/healthy/degraded counters. -/
theorem new_always_ok_default_state (v : String) :
    ∃ p, ModelPerformanceMonitoringPlugin.new v = Except.ok p ∧
      p.state = PluginState.default ∧
      p.state.monitored_models = [] ∧
      p.state.system_metrics.total_models = 0 ∧
      p.state.system_metrics.healthy_models = 0 ∧
      p.state.system_metrics.degraded_models = 0 :=
  ⟨_, rfl, rfl, rfl, rfl, rfl, rfl⟩

/-- C10: `pricing_tiers` is deterministic and independent of the plugin's
state — any two calls agree — and it returns exactly three tiers named
Starter, Professional, Enterprise priced 150000, 750000, 3000000 cents. -/
theorem pricing_tiers_constant (p q : ModelPerformanceMonitoringPlugin) :
    p.pricing_tiers = q.pricing_tiers ∧
    p.pricing_tiers.length = 3 ∧
    p.pricing_tiers.map PricingTier.name = ["Starter", "Professional", "Enterprise"] ∧
    p.pricing_tiers.map PricingTier.price = [150000, 750000, 3000000] :=
  ⟨rfl, rfl, rfl, rfl⟩

-- A history with no in-flight action has pending count zero.
theorem pendingCount_eq_zero_of_not_hasPending (as : List RemediationAction)
    (h : hasPending as = false) : pendingCount as = 0 := by
  simp only [hasPending, List.any_eq_false] at h
  simp only [pendingCount, List.countP_eq_zero]
  exact h

-- Resolving the first in-flight action to a terminal outcome never
-- increases the number of in-flight actions.
theorem pendingCount_resolvePending_le (out : ActionOutcome)
    (hout : out ≠ ActionOutcome.Pending) (as : List RemediationAction) :
    pendingCount (resolvePending out as) ≤ pendingCount as := by
  induction as with
  | nil => simp [resolvePending]
  | cons a rest ih =>
    by_cases hp : a.outcome = ActionOutcome.Pending
    · simp only [resolvePending, if_pos hp, pendingCount, List.countP_cons]
      simp only [pendingCount] at ih
      simp [hp, hout]
    · simp only [resolvePending, if_neg hp, pendingCount, List.countP_cons]
      simp only [pendingCount] at ih
      simp [hp]
      exact ih

-- In-flight counts add over concatenated histories.
theorem pendingCount_append (as bs : List RemediationAction) :
    pendingCount (as ++ bs) = pendingCount as + pendingCount bs := by
  simp [pendingCount, List.countP_append]

-- One engine step preserves "at most one in-flight action".
theorem pendingCount_engineStep_le_one (cfg : EngineConfig) (mid : String)
    (st : EngineState) (ev : EngineEvent) (h : pendingCount st.actions ≤ 1) :
    pendingCount (engineStep cfg mid st ev).actions ≤ 1 := by
  cases ev with
  | evalResult status now =>
    by_cases hH : status = ModelStatus.Healthy
    · simpa [engineStep, hH] using h
    · cases hph : st.phase with
      | Idle =>
        simp only [engineStep, if_neg hH, hph]
        split
        · next hcond =>
          have hnp : hasPending st.actions = false := by
            rcases hcond with ⟨-, h2⟩
            revert h2
            cases hasPending st.actions <;> simp
          have h0 := pendingCount_eq_zero_of_not_hasPending st.actions hnp
          dsimp only
          rw [pendingCount_append, h0]
          simp [pendingCount]
        · exact h
      | Remediating => simpa [engineStep, hH, hph] using h
      | Cooldown => simpa [engineStep, hH, hph] using h
      | Exhausted => simpa [engineStep, hH, hph] using h
  | actionComplete success =>
    have hle : ∀ out, out ≠ ActionOutcome.Pending →
        pendingCount (resolvePending out st.actions) ≤ 1 :=
      fun out hout => le_trans (pendingCount_resolvePending_le out hout st.actions) h
    cases hph : st.phase with
    | Remediating =>
      cases success with
      | true => simpa [engineStep, hph] using hle ActionOutcome.Succeeded (by simp)
      | false =>
        by_cases hm : cfg.max_attempts ≤ st.attempts + 1
        · simpa [engineStep, hph, hm] using hle ActionOutcome.Failed (by simp)
        · simpa [engineStep, hph, hm] using hle ActionOutcome.Failed (by simp)
    | Idle =>
      cases success with
      | true => simpa [engineStep, hph] using hle ActionOutcome.Succeeded (by simp)
      | false => simpa [engineStep, hph] using hle ActionOutcome.Failed (by simp)
    | Cooldown =>
      cases success with
      | true => simpa [engineStep, hph] using hle ActionOutcome.Succeeded (by simp)
      | false => simpa [engineStep, hph] using hle ActionOutcome.Failed (by simp)
    | Exhausted =>
      cases success with
      | true => simpa [engineStep, hph] using hle ActionOutcome.Succeeded (by simp)
      | false => simpa [engineStep, hph] using hle ActionOutcome.Failed (by simp)
  | cooldownExpired =>
    cases hph : st.phase <;> simpa [engineStep, hph] using h
  | operatorReset => simpa [engineStep] using h

-- Any run from a state satisfying the invariant keeps satisfying it.
theorem engineRun_pendingCount_le_one (cfg : EngineConfig) (mid : String) :
    ∀ (evs : List EngineEvent) (st : EngineState), pendingCount st.actions ≤ 1 →
      pendingCount (engineRun cfg mid st evs).actions ≤ 1 := by
  intro evs
  induction evs with
  | nil =>
    intro st h
    simpa [engineRun] using h
  | cons e es ih =>
    intro st h
    simp only [engineRun, List.foldl_cons]
    simp only [engineRun] at ih
    exact ih _ (pendingCount_engineStep_le_one cfg mid st e h)

/-- C2: in every state of the remediation engine reachable from the
initial state by any event sequence, at most one RemediationAction in the
model's history is in-flight (outcome Pending). -/
theorem engine_at_most_one_pending (cfg : EngineConfig) (mid : String)
    (evs : List EngineEvent) :
    pendingCount (engineRun cfg mid EngineState.init evs).actions ≤ 1 :=
  engineRun_pendingCount_le_one cfg mid evs EngineState.init
    (by simp [EngineState.init, pendingCount])

-- One EWMA step keeps the accumulator in [0, 1] when the decay factor,
-- the accumulator and the sample all lie in [0, 1].
theorem ewmaStep_mem_unit (lam acc x : ℚ) (h0 : 0 ≤ lam) (h1 : lam ≤ 1)
    (ha0 : 0 ≤ acc) (ha1 : acc ≤ 1) (hx0 : 0 ≤ x) (hx1 : x ≤ 1) :
    0 ≤ ewmaStep lam acc x ∧ ewmaStep lam acc x ≤ 1 := by
  unfold ewmaStep
  constructor
  · have hA : 0 ≤ lam * x := mul_nonneg h0 hx0
    have hB : 0 ≤ (1 - lam) * acc := mul_nonneg (by linarith) ha0
    linarith
  · have hA : lam * x ≤ lam * 1 := mul_le_mul_of_nonneg_left hx1 h0
    have hB : (1 - lam) * acc ≤ (1 - lam) * 1 := mul_le_mul_of_nonneg_left ha1 (by linarith)
    nlinarith

-- Folding EWMA steps over values in [0, 1] keeps the accumulator in [0, 1].
theorem ewma_foldl_bounds (lam : ℚ) (h0 : 0 ≤ lam) (h1 : lam ≤ 1) :
    ∀ (xs : List ℚ) (acc : ℚ), 0 ≤ acc → acc ≤ 1 →
      (∀ x ∈ xs, 0 ≤ x ∧ x ≤ 1) →
      0 ≤ xs.foldl (ewmaStep lam) acc ∧ xs.foldl (ewmaStep lam) acc ≤ 1 := by
  intro xs
  induction xs with
  | nil =>
    intro acc ha0 ha1 _
    simpa using ⟨ha0, ha1⟩
  | cons x rest ih =>
    intro acc ha0 ha1 hx
    have hxm := hx x (List.mem_cons_self x rest)
    have hstep := ewmaStep_mem_unit lam acc x h0 h1 ha0 ha1 hxm.1 hxm.2
    simp only [List.foldl_cons]
    exact ih (ewmaStep lam acc x) hstep.1 hstep.2
      (fun y hy => hx y (List.mem_cons_of_mem x hy))

-- The EWMA of values in [0, 1] lies in [0, 1].
theorem ewma_bounds (lam : ℚ) (h0 : 0 ≤ lam) (h1 : lam ≤ 1)
    (xs : List ℚ) (hx : ∀ x ∈ xs, 0 ≤ x ∧ x ≤ 1) :
    0 ≤ ewma lam xs ∧ ewma lam xs ≤ 1 := by
  cases xs with
  | nil => norm_num [ewma]
  | cons x rest =>
    have hxm := hx x (List.mem_cons_self x rest)
    exact ewma_foldl_bounds lam h0 h1 rest x hxm.1 hxm.2
      (fun y hy => hx y (List.mem_cons_of_mem x hy))

/-- C3: for a decay factor in [0, 1] and sample values all in [0, 1], the
health score computed by `evaluate` (the EWMA of the last N samples) lies
in [0, 1]. -/
theorem evaluate_score_in_unit_interval (cfg : EvaluatorConfig) (now : ℚ)
    (samples : List Sample) (h0 : 0 ≤ cfg.lam) (h1 : cfg.lam ≤ 1)
    (hs : ∀ s ∈ samples, 0 ≤ s.value ∧ s.value ≤ 1) :
    0 ≤ (evaluate cfg now samples).2 ∧ (evaluate cfg now samples).2 ≤ 1 := by
  have hw : ∀ v ∈ (samples.drop (samples.length - cfg.window_size)).map Sample.value,
      0 ≤ v ∧ v ≤ 1 := by
    intro v hv
    obtain ⟨s, hsm, rfl⟩ := List.mem_map.mp hv
    exact hs s (List.drop_subset _ samples hsm)
  have hb := ewma_bounds cfg.lam h0 h1
    ((samples.drop (samples.length - cfg.window_size)).map Sample.value) hw
  simp only [evaluate]
  split
  · norm_num
  · split
    · exact hb
    · split
      · exact hb
      · split
        · exact hb
        · exact hb

/-- Witness for C3: the default configuration and one in-range sample. -/
theorem evaluate_score_in_unit_interval_witness :
    0 ≤ EvaluatorConfig.default.lam ∧ EvaluatorConfig.default.lam ≤ 1 ∧
    (∀ s ∈ [Sample.mk "model-1" 0 (1/2) "accuracy"], 0 ≤ s.value ∧ s.value ≤ 1) ∧
    (0 ≤ (evaluate EvaluatorConfig.default 60 [Sample.mk "model-1" 0 (1/2) "accuracy"]).2 ∧
      (evaluate EvaluatorConfig.default 60 [Sample.mk "model-1" 0 (1/2) "accuracy"]).2 ≤ 1) := by
  have h0 : 0 ≤ EvaluatorConfig.default.lam := by norm_num [EvaluatorConfig.default]
  have h1 : EvaluatorConfig.default.lam ≤ 1 := by norm_num [EvaluatorConfig.default]
  have hs : ∀ s ∈ [Sample.mk "model-1" 0 (1/2) "accuracy"], 0 ≤ s.value ∧ s.value ≤ 1 := by
    intro s hsm
    simp only [List.mem_singleton] at hsm
    subst hsm
    norm_num
  exact ⟨h0, h1, hs,
    evaluate_score_in_unit_interval EvaluatorConfig.default 60 _ h0 h1 hs⟩

-- Running over a concatenation is running over each part in turn.
theorem engineRun_append (cfg : EngineConfig) (mid : String) (st : EngineState)
    (l1 l2 : List EngineEvent) :
    engineRun cfg mid st (l1 ++ l2) = engineRun cfg mid (engineRun cfg mid st l1) l2 := by
  simp [engineRun, List.foldl_append]

-- Resolving an appended in-flight action when the prefix holds none.
theorem resolvePending_append_no_pending (out : ActionOutcome)
    (a : RemediationAction) (ha : a.outcome = ActionOutcome.Pending) :
    ∀ as : List RemediationAction, hasPending as = false →
      resolvePending out (as ++ [a]) = as ++ [{ a with outcome := out }] := by
  intro as
  induction as with
  | nil =>
    intro _
    simp [resolvePending, ha]
  | cons b rest ih =>
    intro h
    rw [hasPending, List.any_cons, Bool.or_eq_false_iff] at h
    have hb : ¬ (b.outcome = ActionOutcome.Pending) := by
      have := h.1
      simpa using this
    have hrest : hasPending rest = false := h.2
    simp [resolvePending, hb, ih hrest]

-- Appending a terminally-resolved action keeps the history pending-free.
theorem hasPending_append_terminal (as : List RemediationAction)
    (h : hasPending as = false) (a : RemediationAction)
    (ha : a.outcome ≠ ActionOutcome.Pending) :
    hasPending (as ++ [a]) = false := by
  rw [hasPending, List.any_append, Bool.or_eq_false_iff]
  exact ⟨h, by simpa using ha⟩

-- One failing round from Idle with a pending-free history: the engine
-- issues an action, sees it fail, and lands in Exhausted when the failure
-- was the max_attempts-th consecutive one, else back in Idle.
theorem failRound_run (cfg : EngineConfig) (mid : String) (now : ℚ)
    (j : ℕ) (as : List RemediationAction) (hp : hasPending as = false) :
    engineRun cfg mid ⟨RemediationPhase.Idle, j, as⟩ (failRound now) =
      if cfg.max_attempts ≤ j + 1 then
        ⟨RemediationPhase.Exhausted, j + 1,
          as ++ [{ model_id := mid, action_kind := "remediate", attempt_count := j + 1,
                   last_attempt_at := now, outcome := ActionOutcome.Failed }]⟩
      else
        ⟨RemediationPhase.Idle, j + 1,
          as ++ [{ model_id := mid, action_kind := "remediate", attempt_count := j + 1,
                   last_attempt_at := now, outcome := ActionOutcome.Failed }]⟩ := by
  have hres := resolvePending_append_no_pending ActionOutcome.Failed
    { model_id := mid, action_kind := "remediate", attempt_count := j + 1,
      last_attempt_at := now, outcome := ActionOutcome.Pending } rfl as hp
  by_cases hm : cfg.max_attempts ≤ j + 1
  · rw [if_pos hm]
    simp [engineRun, failRound, engineStep, triggersRemediation, hp, hm, hres]
  · rw [if_neg hm]
    simp [engineRun, failRound, engineStep, triggersRemediation, hp, hm, hres]

-- Peeling one round off a failing episode.
theorem failEpisode_succ (now : ℚ) (k : ℕ) :
    failEpisode now (k + 1) = failRound now ++ failEpisode now k := by
  simp [failEpisode, List.replicate_succ]

-- From Idle with j prior consecutive failures and a pending-free history,
-- k further failing rounds reach Exhausted exactly when they hit the
-- max_attempts bound.
theorem failEpisode_exhausts (cfg : EngineConfig) (mid : String) (now : ℚ) :
    ∀ (k j : ℕ) (as : List RemediationAction), hasPending as = false →
      j + k = cfg.max_attempts → 1 ≤ k →
      (engineRun cfg mid ⟨RemediationPhase.Idle, j, as⟩ (failEpisode now k)).phase =
        RemediationPhase.Exhausted := by
  intro k
  induction k with
  | zero =>
    intro j as _ _ hk
    exact absurd hk (by norm_num)
  | succ k ih =>
    intro j as hp hsum hk
    rw [failEpisode_succ, engineRun_append, failRound_run cfg mid now j as hp]
    rcases Nat.eq_zero_or_pos k with hk0 | hkpos
    · subst hk0
      have hm : cfg.max_attempts ≤ j + 1 := by omega
      rw [if_pos hm]
      simp [failEpisode, engineRun]
    · have hm : ¬ (cfg.max_attempts ≤ j + 1) := by omega
      rw [if_neg hm]
      exact ih (j + 1) _ (hasPending_append_terminal as hp _ (by simp)) (by omega) hkpos

-- No event other than a Healthy evaluation or an operator reset moves the
-- engine out of Exhausted.
theorem exhausted_stable (cfg : EngineConfig) (mid : String)
    (st : EngineState) (ev : EngineEvent)
    (hst : st.phase = RemediationPhase.Exhausted)
    (hH : ∀ t, ev ≠ EngineEvent.evalResult ModelStatus.Healthy t)
    (hR : ev ≠ EngineEvent.operatorReset) :
    (engineStep cfg mid st ev).phase = RemediationPhase.Exhausted := by
  obtain ⟨ph, att, as⟩ := st
  dsimp only at hst
  subst hst
  cases ev with
  | evalResult status now =>
    have hs : status ≠ ModelStatus.Healthy := fun h => hH now (by rw [h])
    simp [engineStep, hs]
  | actionComplete success => simp [engineStep]
  | cooldownExpired => simp [engineStep]
  | operatorReset => exact absurd rfl hR

/-- C4: for every engine configuration with at least one allowed attempt,
the episode of `max_attempts` consecutive executor failures drives the
engine from its initial state to Exhausted; Exhausted is preserved by every
subsequent step other than a Healthy evaluation or an operator reset; and a
Healthy evaluation moves the engine (from any state) to Idle. -/
theorem engine_exhausted_after_max_failures (cfg : EngineConfig) (mid : String)
    (now : ℚ) (hmax : 1 ≤ cfg.max_attempts) :
    (engineRun cfg mid EngineState.init (failEpisode now cfg.max_attempts)).phase =
      RemediationPhase.Exhausted ∧
    (∀ (st : EngineState) (ev : EngineEvent),
      st.phase = RemediationPhase.Exhausted →
      (∀ t, ev ≠ EngineEvent.evalResult ModelStatus.Healthy t) →
      ev ≠ EngineEvent.operatorReset →
      (engineStep cfg mid st ev).phase = RemediationPhase.Exhausted) ∧
    ∀ (st : EngineState) (t : ℚ),
      (engineStep cfg mid st (EngineEvent.evalResult ModelStatus.Healthy t)).phase =
        RemediationPhase.Idle := by
  refine ⟨?_, fun st ev => exhausted_stable cfg mid st ev, fun st t => ?_⟩
  · exact failEpisode_exhausts cfg mid now cfg.max_attempts 0 [] rfl (by omega) hmax
  · simp [engineStep]

/-- Witness for C4 at the default engine configuration (`max_attempts = 5`)
and a concrete model. -/
theorem engine_exhausted_after_max_failures_witness :
    1 ≤ EngineConfig.default.max_attempts ∧
    ((engineRun EngineConfig.default "model-1" EngineState.init
        (failEpisode 0 EngineConfig.default.max_attempts)).phase =
          RemediationPhase.Exhausted ∧
      (∀ (st : EngineState) (ev : EngineEvent),
        st.phase = RemediationPhase.Exhausted →
        (∀ t, ev ≠ EngineEvent.evalResult ModelStatus.Healthy t) →
        ev ≠ EngineEvent.operatorReset →
        (engineStep EngineConfig.default "model-1" st ev).phase =
          RemediationPhase.Exhausted) ∧
      ∀ (st : EngineState) (t : ℚ),
        (engineStep EngineConfig.default "model-1" st
          (EngineEvent.evalResult ModelStatus.Healthy t)).phase =
            RemediationPhase.Idle) :=
  ⟨by decide,
    engine_exhausted_after_max_failures EngineConfig.default "model-1" 0 (by decide)⟩
